import Mathlib

/-!
Verification development for the go-ollama3 RAG chatbot (`src/main.go`).

The Go program is shallowly embedded: pure functions of the source become
Lean functions; the external collaborators (the PDF text extractor, the
Ollama embedding and generation HTTP backends, the filesystem) become
explicit parameters or `Except`/`Option` values, so that the control flow
of the Go code around them is modelled faithfully.  Go `float64` values
are idealised: vector components are rationals (`ℚ`) and similarity
scores are real numbers (`ℝ`).  Go `len` on strings counts bytes, which
is `String.utf8ByteSize` here.
-/

namespace GoOllama3

/-- Model of Go `strings.Fields` (used by `ChunkText` in `src/main.go`):
splits a character list around maximal runs of whitespace, accumulating
the current word in reverse in `cur`. -/
def fieldsAux : List Char → List Char → List String
  | cur, [] => if cur.isEmpty then [] else [String.mk cur.reverse]
  | cur, c :: cs =>
    if c.isWhitespace then
      if cur.isEmpty then fieldsAux [] cs
      else String.mk cur.reverse :: fieldsAux [] cs
    else fieldsAux (c :: cur) cs

/-- `strings.Fields(text)`: the whitespace-delimited words of `text`. -/
def goFields (s : String) : List String := fieldsAux [] s.data

/-- The `for i := 0; i < len(words); i += chunkSize - overlap` loop of
`ChunkText` (`src/main.go:138-149`), with `step = chunkSize - overlap`.
Each round takes the window `words[i:end]` with
`end = min (i+size) len(words)`, joins it with single spaces, and stops
after the window that reaches the end of the word list.  The Go loop
does not terminate when `step = 0`; the guard `0 < step` makes the Lean
function total (all claims assume `size > overlap`). -/
def chunkLoop (words : List String) (size step i : ℕ) : List String :=
  if _h : i < words.length ∧ 0 < step then
    if min (i + size) words.length = words.length then
      [String.intercalate " " ((words.drop i).take (min (i + size) words.length - i))]
    else
      String.intercalate " " ((words.drop i).take (min (i + size) words.length - i))
        :: chunkLoop words size step (i + step)
  else []
termination_by words.length - i
decreasing_by
  omega

/-- `ChunkText` (`src/main.go:131-152`): if the word count is at most
`chunkSize` the whole text is returned as the single chunk, otherwise
the sliding-window loop runs. -/
def chunkText (text : String) (chunkSize overlap : ℕ) : List String :=
  let words := goFields text
  if words.length ≤ chunkSize then [text]
  else chunkLoop words chunkSize (chunkSize - overlap) 0

/-- One windowing step of the chunk-count recurrence: removing one
window start advances the remaining distance by `step`. -/
lemma count_step (A step : ℕ) (hA : 0 < A) (hstep : 0 < step) :
    (A + step - 1) / step + 1 = ((A - step) + step - 1) / step + 1 + 1 := by
  have h1 : A + step - 1 = (A - 1) + step := by omega
  rw [h1, Nat.add_div_right _ hstep]
  rcases le_or_lt A step with h | h
  · have h2 : A - step = 0 := by omega
    have h3 : (A - 1) / step = 0 := Nat.div_eq_of_lt (by omega)
    have h4 : (0 + step - 1) / step = 0 := Nat.div_eq_of_lt (by omega)
    rw [h2, h3, h4]
  · have h2 : (A - step) + step - 1 = A - 1 := by omega
    rw [h2]

/-- Characterization of the `ChunkText` sliding-window loop: starting at
word position `i < len`, it produces one chunk per window start
`i, i+step, i+step*2, ...`, each chunk being the words of the window
`[start, min (start+size) len)` joined by single spaces, and the number
of windows is `ceil((len-i-size)/step) + 1`. -/
lemma chunkLoop_eq (words : List String) (size step : ℕ) (hstep : 0 < step)
    (hss : step ≤ size) (i : ℕ) (hi : i < words.length) :
    chunkLoop words size step i =
      (List.range ((words.length - i - size + step - 1) / step + 1)).map
        (fun j => String.intercalate " "
          ((words.drop (i + j * step)).take
            (min (i + j * step + size) words.length - (i + j * step)))) := by
  rw [chunkLoop, dif_pos ⟨hi, hstep⟩]
  by_cases he : min (i + size) words.length = words.length
  · rw [if_pos he]
    have hub : words.length ≤ i + size := by omega
    have hc : (words.length - i - size + step - 1) / step = 0 :=
      Nat.div_eq_of_lt (by omega)
    rw [hc]
    simp [List.range_succ]
  · rw [if_neg he]
    have hlt : i + size < words.length := by omega
    rw [chunkLoop_eq words size step hstep hss (i + step) (by omega)]
    have hcount : (words.length - i - size + step - 1) / step + 1
        = ((words.length - (i + step) - size + step - 1) / step + 1) + 1 := by
      have h1 : words.length - (i + step) - size = (words.length - i - size) - step := by
        omega
      rw [h1]
      exact count_step _ _ (by omega) hstep
    conv_rhs => rw [hcount, List.range_succ_eq_map, List.map_cons, List.map_map]
    congr 1
    · simp
    · apply List.map_congr_left
      intro j _
      have harg : i + step + j * step = i + (j + 1) * step := by ring
      simp only [Function.comp_apply, Nat.succ_eq_add_one, harg]
termination_by words.length - i

/-- C1: for a text whose whitespace-delimited word count `w` exceeds
`size` (with `size > overlap`), `ChunkText` returns exactly
`ceil((w-size)/(size-overlap)) + 1` chunks, chunk `j` being the words
of the window `[j*(size-overlap), min (j*(size-overlap)+size) w)`
rejoined with single spaces; for a non-empty text with `w ≤ size` it
returns the one-element list containing the input text. -/
theorem chunkText_spec :
    (∀ (text : String) (size overlap : ℕ), overlap < size →
        size < (goFields text).length →
        chunkText text size overlap =
          (List.range
              (((goFields text).length - size + (size - overlap) - 1) / (size - overlap)
                + 1)).map
            (fun j => String.intercalate " "
              (((goFields text).drop (j * (size - overlap))).take
                (min (j * (size - overlap) + size) (goFields text).length
                  - j * (size - overlap)))))
    ∧ (∀ (text : String) (size overlap : ℕ), text ≠ "" →
        (goFields text).length ≤ size → chunkText text size overlap = [text]) := by
  constructor
  · intro text size overlap ho hw
    simp only [chunkText]
    rw [if_neg (by omega), chunkLoop_eq _ _ _ (by omega) (by omega) 0 (by omega)]
    simp only [Nat.sub_zero, Nat.zero_add]
  · intro text size overlap _ hw
    simp only [chunkText]
    rw [if_pos hw]

/-- Witness for C1 at the concrete texts "a b c" (three words, size 2,
overlap 1) and "a" (one word, size 3). -/
theorem chunkText_spec_witness :
    (1 < 2 ∧ 2 < (goFields "a b c").length ∧
      chunkText "a b c" 2 1 =
        (List.range (((goFields "a b c").length - 2 + (2 - 1) - 1) / (2 - 1) + 1)).map
          (fun j => String.intercalate " "
            (((goFields "a b c").drop (j * (2 - 1))).take
              (min (j * (2 - 1) + 2) (goFields "a b c").length - j * (2 - 1)))))
    ∧ ("a" ≠ "" ∧ (goFields "a").length ≤ 3 ∧ chunkText "a" 3 1 = ["a"]) :=
  ⟨⟨by decide, by decide, chunkText_spec.1 "a b c" 2 1 (by decide) (by decide)⟩,
    by decide, by decide, chunkText_spec.2 "a" 3 1 (by decide) (by decide)⟩

/-- C9 counterexample: on the empty input string `ChunkText` does not
return an empty sequence (the word list is empty, so the `≤ size`
branch returns the one-element list holding the input text itself). -/
theorem chunkText_empty_cex : chunkText "" 300 50 ≠ ([] : List String) := by decide

/-- C9 amended: on the empty input string `ChunkText` returns the
one-element list containing the empty string (the caller's
20-character filter later discards it), not an empty sequence. -/
theorem chunkText_empty : ∀ size overlap : ℕ, chunkText "" size overlap = [""] := by
  intro size overlap
  have h : goFields "" = [] := rfl
  simp [chunkText, h]

/-- The dot-product accumulator of `cosineSimilarity`
(`src/main.go:190-195`), over rational idealizations of `float64`. -/
def dotProduct (a b : List ℚ) : ℚ := (List.zipWith (fun x y => x * y) a b).sum

/-- The `normA`/`normB` accumulators of `cosineSimilarity` before the
square root: the sum of the squared components. -/
def sumSq (a : List ℚ) : ℚ := (a.map (fun x => x * x)).sum

/-- `math.Sqrt` applied to the accumulated sum of squares: the
Euclidean norm of the vector. -/
noncomputable def vecNorm (a : List ℚ) : ℝ := Real.sqrt ((sumSq a : ℚ) : ℝ)

/-- `cosineSimilarity` (`src/main.go:185-205`): `0` on length mismatch
or when either norm is zero, otherwise `dot / (normA * normB)`. -/
noncomputable def cosineSimilarity (a b : List ℚ) : ℝ :=
  if a.length ≠ b.length then 0
  else if vecNorm a = 0 ∨ vecNorm b = 0 then 0
  else ((dotProduct a b : ℚ) : ℝ) / (vecNorm a * vecNorm b)

lemma sumSq_nonneg (a : List ℚ) : 0 ≤ sumSq a := by
  apply List.sum_nonneg
  intro x hx
  obtain ⟨y, _, rfl⟩ := List.mem_map.mp hx
  exact mul_self_nonneg y

lemma vecNorm_eq_zero_iff (a : List ℚ) : vecNorm a = 0 ↔ sumSq a = 0 := by
  unfold vecNorm
  rw [Real.sqrt_eq_zero']
  constructor
  · intro h
    have h' : sumSq a ≤ 0 := by exact_mod_cast h
    exact le_antisymm h' (sumSq_nonneg a)
  · intro h
    rw [h]
    simp

/-- C3: `cosineSimilarity` returns `0` whenever the lengths differ or
either Euclidean norm is `0`, and otherwise returns
`dot(a,b) / (norm a * norm b)`; it is a total function (never fails). -/
theorem cosineSimilarity_spec :
    ∀ a b : List ℚ,
      ((a.length ≠ b.length ∨ vecNorm a = 0 ∨ vecNorm b = 0) →
          cosineSimilarity a b = 0)
      ∧ (a.length = b.length → vecNorm a ≠ 0 → vecNorm b ≠ 0 →
          cosineSimilarity a b
            = ((dotProduct a b : ℚ) : ℝ) / (vecNorm a * vecNorm b)) := by
  intro a b
  constructor
  · intro h
    unfold cosineSimilarity
    split_ifs with h₁ h₂
    · rfl
    · rfl
    · tauto
  · intro hlen hna hnb
    unfold cosineSimilarity
    rw [if_neg (by omega), if_neg (by tauto)]

/-- Witness for C3: a length mismatch scores `0`, and two matched
one-component vectors score the explicit quotient. -/
theorem cosineSimilarity_spec_witness :
    (([(1 : ℚ)].length ≠ [(1 : ℚ), 0].length ∨ vecNorm [(1 : ℚ)] = 0 ∨
        vecNorm [(1 : ℚ), 0] = 0) ∧
      cosineSimilarity [(1 : ℚ)] [(1 : ℚ), 0] = 0)
    ∧ (([(2 : ℚ)].length = [(3 : ℚ)].length ∧ vecNorm [(2 : ℚ)] ≠ 0 ∧
        vecNorm [(3 : ℚ)] ≠ 0) ∧
      cosineSimilarity [(2 : ℚ)] [(3 : ℚ)]
        = ((dotProduct [(2 : ℚ)] [(3 : ℚ)] : ℚ) : ℝ)
            / (vecNorm [(2 : ℚ)] * vecNorm [(3 : ℚ)])) := by
  have hna : vecNorm [(2 : ℚ)] ≠ 0 := by
    rw [Ne, vecNorm_eq_zero_iff]
    norm_num [sumSq]
  have hnb : vecNorm [(3 : ℚ)] ≠ 0 := by
    rw [Ne, vecNorm_eq_zero_iff]
    norm_num [sumSq]
  exact ⟨⟨Or.inl (by decide), (cosineSimilarity_spec _ _).1 (Or.inl (by decide))⟩,
    ⟨rfl, hna, hnb⟩, (cosineSimilarity_spec _ _).2 rfl hna hnb⟩

/-- `Document` (`src/main.go:22-27`): one stored chunk record. -/
structure Document where
  id : String
  content : String
  page : ℤ
  vector : List ℚ
deriving DecidableEq

/-- `VectorStore` (`src/main.go:29-32`): the flat index. -/
structure VectorStore where
  documents : List Document
  model_name : String
deriving DecidableEq

/-- The descending-by-score comparison `SearchSimilar` sorts with
(`src/main.go:313-315`). -/
def byScore : Document × ℝ → Document × ℝ → Prop := fun x y => y.2 ≤ x.2

noncomputable instance : DecidableRel byScore := fun x y =>
  inferInstanceAs (Decidable (y.2 ≤ x.2))

instance : IsTotal (Document × ℝ) byScore := ⟨fun a b => le_total b.2 a.2⟩

instance : IsTrans (Document × ℝ) byScore := ⟨fun _ _ _ h₁ h₂ => le_trans h₂ h₁⟩

/-- `SearchSimilar` (`src/main.go:291-328`) with the query's embedding
already obtained: score every stored document against the query vector,
sort descending by score, clamp `topK` to the document count, and
return the first `topK` documents. The Go `sort.Slice` is unstable, so
any sorted permutation is an admissible refinement; insertion sort is
used here. -/
noncomputable def searchSimilar (queryVector : List ℚ) (docs : List Document)
    (topK : ℕ) : List Document :=
  ((List.insertionSort byScore
      (docs.map (fun doc => (doc, cosineSimilarity queryVector doc.vector)))).take
    (min topK docs.length)).map Prod.fst

/-- C2: `SearchSimilar` returns at most `k` documents, in order of
non-increasing cosine similarity to the query vector, and returns a
permutation of all stored documents whenever `k` is at least the
document count. -/
theorem searchSimilar_spec :
    ∀ (queryVector : List ℚ) (docs : List Document) (k : ℕ),
      (searchSimilar queryVector docs k).length ≤ k
      ∧ List.Sorted
          (fun d₁ d₂ => cosineSimilarity queryVector d₂.vector
              ≤ cosineSimilarity queryVector d₁.vector)
          (searchSimilar queryVector docs k)
      ∧ (docs.length ≤ k → List.Perm (searchSimilar queryVector docs k) docs) := by
  intro qv docs k
  set scored := docs.map (fun doc => (doc, cosineSimilarity qv doc.vector)) with hscored
  have hslen : (List.insertionSort byScore scored).length = docs.length := by
    rw [(List.perm_insertionSort byScore scored).length_eq, hscored, List.length_map]
  refine ⟨?_, ?_, ?_⟩
  · simp only [searchSimilar, ← hscored, List.length_map, List.length_take]
    omega
  · have hsorted : List.Sorted byScore (List.insertionSort byScore scored) :=
      List.sorted_insertionSort byScore scored
    have hmem : ∀ p ∈ List.insertionSort byScore scored,
        p.2 = cosineSimilarity qv p.1.vector := by
      intro p hp
      have hp' : p ∈ scored := (List.perm_insertionSort byScore scored).mem_iff.mp hp
      rw [hscored] at hp'
      obtain ⟨d, _, rfl⟩ := List.mem_map.mp hp'
      rfl
    have hpair : List.Pairwise (fun p q : Document × ℝ =>
        cosineSimilarity qv q.1.vector ≤ cosineSimilarity qv p.1.vector)
        (List.insertionSort byScore scored) := by
      refine List.Pairwise.imp_of_mem ?_ hsorted
      intro p q hp hq hr
      rw [← hmem p hp, ← hmem q hq]
      exact hr
    have htake := hpair.sublist (List.take_sublist (min k docs.length) _)
    simp only [searchSimilar, ← hscored]
    exact List.pairwise_map.mpr htake
  · intro hk
    simp only [searchSimilar, ← hscored]
    rw [min_eq_right hk, List.take_of_length_le (le_of_eq hslen)]
    have hperm := (List.perm_insertionSort byScore scored).map Prod.fst
    refine hperm.trans ?_
    rw [hscored, List.map_map]
    have hmapid : ∀ l : List Document,
        List.map (Prod.fst ∘ fun doc => (doc, cosineSimilarity qv doc.vector)) l = l := by
      intro l
      induction l with
      | nil => rfl
      | cons x xs ih =>
        rw [List.map_cons, ih]
        rfl
    rw [hmapid]

/-- Witness for C2 on a two-document store with `k = 5`. -/
theorem searchSimilar_spec_witness :
    (searchSimilar [(1 : ℚ)]
        [⟨"d1", "c1", 1, [1]⟩, ⟨"d2", "c2", 1, [0]⟩] 5).length ≤ 5
    ∧ List.Sorted
        (fun d₁ d₂ => cosineSimilarity [(1 : ℚ)] d₂.vector
            ≤ cosineSimilarity [(1 : ℚ)] d₁.vector)
        (searchSimilar [(1 : ℚ)] [⟨"d1", "c1", 1, [1]⟩, ⟨"d2", "c2", 1, [0]⟩] 5)
    ∧ (([⟨"d1", "c1", 1, [1]⟩, ⟨"d2", "c2", 1, [0]⟩] : List Document).length ≤ 5
        ∧ List.Perm
            (searchSimilar [(1 : ℚ)] [⟨"d1", "c1", 1, [1]⟩, ⟨"d2", "c2", 1, [0]⟩] 5)
            [⟨"d1", "c1", 1, [1]⟩, ⟨"d2", "c2", 1, [0]⟩]) :=
  ⟨(searchSimilar_spec [(1 : ℚ)] [⟨"d1", "c1", 1, [1]⟩, ⟨"d2", "c2", 1, [0]⟩] 5).1,
    (searchSimilar_spec [(1 : ℚ)] [⟨"d1", "c1", 1, [1]⟩, ⟨"d2", "c2", 1, [0]⟩] 5).2.1,
    by decide,
    (searchSimilar_spec [(1 : ℚ)] [⟨"d1", "c1", 1, [1]⟩, ⟨"d2", "c2", 1, [0]⟩] 5).2.2
      (by decide)⟩

/-- JSON value trees: the shapes `encoding/json` reads and writes for
the store file (`vectorstore.json`).  Numbers are idealized as
rationals.  The textual rendering and byte-level parsing of JSON are
the external library's concern; persistence is modelled at the level
of the structured value. -/
inductive Json where
  | num (q : ℚ)
  | str (s : String)
  | arr (elems : List Json)
  | obj (fields : List (String × Json))

/-- Field access during unmarshalling: JSON object fields are matched
by name. -/
def Json.getField (j : Json) (name : String) : Option Json :=
  match j with
  | Json.obj fields => fields.lookup name
  | _ => none

/-- The zero value of `Document`, the base `encoding/json` decodes a
fresh slice element into. -/
def zeroDocument : Document := { id := "", content := "", page := 0, vector := [] }

/-- Unmarshalling into a `string` field: a JSON string overwrites it;
any other value is a type error that leaves the field's prior value in
place (best-effort decoding).  The `Bool` records whether a type error
occurred. -/
def unmarshalString : Json → String → String × Bool
  | Json.str s, _ => (s, false)
  | _, prev => (prev, true)

/-- Unmarshalling into a Go `int` field: the number must be integral,
otherwise the field keeps its prior value and a type error is
recorded. -/
def unmarshalInt : Json → ℤ → ℤ × Bool
  | Json.num q, prev => if q.den = 1 then (q.num, false) else (prev, true)
  | _, prev => (prev, true)

/-- Unmarshalling into a `float64` field. -/
def unmarshalRat : Json → ℚ → ℚ × Bool
  | Json.num q, _ => (q, false)
  | _, prev => (prev, true)

/-- Unmarshalling a JSON array into `[]float64`: one entry per
element, each decoded from the zero value; a bad element keeps the
zero and records the error, and decoding continues. -/
def unmarshalRatList : List Json → List ℚ × Bool
  | [] => ([], false)
  | j :: js =>
      match unmarshalRat j 0, unmarshalRatList js with
      | (x, e1), (xs, e2) => (x :: xs, e1 || e2)

/-- Unmarshalling the `vector` field: a non-array is a type error that
keeps the prior slice. -/
def unmarshalVectorField (j : Json) (prev : List ℚ) : List ℚ × Bool :=
  match j with
  | Json.arr es => unmarshalRatList es
  | _ => (prev, true)

/-- One struct field during unmarshalling: an absent field keeps the
target's prior value without error; a present field is decoded
best-effort by `um`. -/
def unmarshalField {α : Type} (um : Json → α → α × Bool) (j : Json)
    (name : String) (prev : α) : α × Bool :=
  match j.getField name with
  | some v => um v prev
  | none => (prev, false)

/-- `json.Marshal` of a `Document` with its struct tags
(`src/main.go:22-27`): fields `id`, `content`, `page`, `vector`. -/
def encodeDocument (d : Document) : Json :=
  Json.obj [("id", Json.str d.id), ("content", Json.str d.content),
    ("page", Json.num (d.page : ℚ)), ("vector", Json.arr (d.vector.map Json.num))]

/-- `json.Unmarshal` of one `Document` into `prev`, best-effort:
non-object input is a type error leaving `prev` intact; object input
decodes each tagged field that is present, bad fields keeping their
prior values with the error recorded. -/
def unmarshalDocument (j : Json) (prev : Document) : Document × Bool :=
  match j with
  | Json.obj _ =>
      match unmarshalField unmarshalString j "id" prev.id,
            unmarshalField unmarshalString j "content" prev.content,
            unmarshalField unmarshalInt j "page" prev.page,
            unmarshalField unmarshalVectorField j "vector" prev.vector with
      | (id, e1), (content, e2), (page, e3), (vector, e4) =>
          ({ id := id, content := content, page := page, vector := vector },
            e1 || e2 || e3 || e4)
  | _ => (prev, true)

/-- Unmarshalling a JSON array into `[]Document`: one slice entry per
array element, each decoded best-effort from the zero `Document`;
element errors are recorded and decoding continues with the remaining
elements.  (The startup receiver's slice is empty, so `encoding/json`'s
capacity reuse of a prior backing array does not arise.) -/
def unmarshalDocList : List Json → List Document × Bool
  | [] => ([], false)
  | j :: js =>
      match unmarshalDocument j zeroDocument, unmarshalDocList js with
      | (d, e1), (ds, e2) => (d :: ds, e1 || e2)

/-- Unmarshalling the `documents` field: a non-array is a type error
that keeps the prior slice. -/
def unmarshalDocsField (j : Json) (prev : List Document) : List Document × Bool :=
  match j with
  | Json.arr es => unmarshalDocList es
  | _ => (prev, true)

/-- `json.Marshal` of the `VectorStore` (`src/main.go:29-32`): fields
`documents` and `model_name`. -/
def encodeVectorStore (s : VectorStore) : Json :=
  Json.obj [("documents", Json.arr (s.documents.map encodeDocument)),
    ("model_name", Json.str s.model_name)]

/-- `json.Unmarshal` of the whole store into `prev`, best-effort: type
errors anywhere are recorded and the rest of the value is still
decoded, so a failed unmarshal can leave the target partially
populated — exactly `encoding/json`'s documented behaviour. -/
def unmarshalStore (j : Json) (prev : VectorStore) : VectorStore × Bool :=
  match j with
  | Json.obj _ =>
      match unmarshalField unmarshalDocsField j "documents" prev.documents,
            unmarshalField unmarshalString j "model_name" prev.model_name with
      | (docs, e1), (mn, e2) =>
          ({ documents := docs, model_name := mn }, e1 || e2)
  | _ => (prev, true)

/-- `SaveVectorStore` (`src/main.go:267-274`): marshal the whole store;
the resulting value is what ends up in the file at `dbPath`. -/
def saveVectorStore (store : VectorStore) : Json := encodeVectorStore store

/-- The three states of the persisted store file as `LoadVectorStore`
sees them: absent (`os.Stat` failure), present but not syntactically
valid JSON, or present and parsing to a JSON value. -/
inductive StoreFile where
  | missing
  | invalidJson
  | json (j : Json)

/-- `LoadVectorStore` (`src/main.go:277-288`).  A missing file errors
with the store untouched.  `json.Unmarshal` first validates the bytes:
a syntax error also leaves the target untouched.  Within valid JSON,
however, unmarshalling is best-effort — the target receives everything
that decoded and the first type error is returned afterwards, so a
failed load can still have populated the store. -/
def loadVectorStore (file : StoreFile) (store : VectorStore) :
    VectorStore × Except String Unit :=
  match file with
  | StoreFile.missing => (store, Except.error "database non esistente")
  | StoreFile.invalidJson => (store, Except.error "unmarshal syntax error")
  | StoreFile.json j =>
      match unmarshalStore j store with
      | (s, false) => (s, Except.ok ())
      | (s, true) => (s, Except.error "unmarshal type error")

lemma unmarshalRatList_encode (l : List ℚ) :
    unmarshalRatList (l.map Json.num) = (l, false) := by
  induction l with
  | nil => rfl
  | cons x xs ih => simp [unmarshalRatList, unmarshalRat, ih]

lemma unmarshalDocument_encode (d : Document) (prev : Document) :
    unmarshalDocument (encodeDocument d) prev = (d, false) := by
  simp [unmarshalDocument, encodeDocument, unmarshalField, Json.getField, List.lookup,
    unmarshalString, unmarshalInt, unmarshalVectorField, unmarshalRatList_encode,
    Rat.den_intCast, Rat.num_intCast]

lemma unmarshalDocList_encode (l : List Document) :
    unmarshalDocList (l.map encodeDocument) = (l, false) := by
  induction l with
  | nil => rfl
  | cons d ds ih => simp [unmarshalDocList, unmarshalDocument_encode, ih]

lemma unmarshalStore_encode (s prev : VectorStore) :
    unmarshalStore (encodeVectorStore s) prev = (s, false) := by
  simp [unmarshalStore, encodeVectorStore, unmarshalField, Json.getField, List.lookup,
    unmarshalDocsField, unmarshalDocList_encode, unmarshalString]

/-- C4: saving any vector store and loading it back yields exactly the
store that was saved, field for field, whatever store the receiver
held before. -/
theorem saveLoad_roundTrip :
    ∀ store prev : VectorStore,
      loadVectorStore (StoreFile.json (saveVectorStore store)) prev
        = (store, Except.ok ()) := by
  intro store prev
  simp [loadVectorStore, saveVectorStore, unmarshalStore_encode]

/-- The store `NewRAGChatbot` starts with (`src/main.go:72-80`): no
documents, empty model name. -/
def newRAGChatbotStore : VectorStore := { documents := [], model_name := "" }

/-- The startup sequence of `main` (`src/main.go:511-517`): try to load
the persisted store into the fresh chatbot's store; on failure only a
warning is printed and the process continues with whatever the store
now holds. -/
def startupStore (file : StoreFile) : VectorStore :=
  (loadVectorStore file newRAGChatbotStore).1

/-- A persisted file that is valid JSON but not the store shape: the
`documents` array is well-formed, `model_name` is a number. -/
def typeErrorStoreJson : Json :=
  Json.obj [("documents", Json.arr
      [encodeDocument { id := "a", content := "c", page := 1, vector := [1] }]),
    ("model_name", Json.num 5)]

/-- C7 counterexample: this valid-JSON file cannot be parsed into the
store shape and the load fails, yet `json.Unmarshal` has already
populated `documents` best-effort, so after the failed load the
in-memory store holds one document — not the empty index the claim
asserts. -/
theorem loadTypeError_cex :
    (loadVectorStore (StoreFile.json typeErrorStoreJson) newRAGChatbotStore).2
        = Except.error "unmarshal type error"
    ∧ (startupStore (StoreFile.json typeErrorStoreJson)).documents
        = [{ id := "a", content := "c", page := 1, vector := [1] }] := by
  have h : loadVectorStore (StoreFile.json typeErrorStoreJson) newRAGChatbotStore
      = ({ documents := [{ id := "a", content := "c", page := 1, vector := [1] }],
           model_name := "" }, Except.error "unmarshal type error") := rfl
  exact ⟨by rw [h], by rw [startupStore, h]⟩

/-- C7 amended: a load failure at startup is non-fatal (loading is a
total function whose result the process continues with); when the file
is missing or its content is not syntactically valid JSON the store is
untouched and the process proceeds with the empty index; but when the
content is valid JSON that does not fit the store shape,
`json.Unmarshal` best-effort-populates the store before returning the
type error, so the store may hold documents after the failed load. -/
theorem loadFailure_emptyIndex :
    ∀ file : StoreFile,
      (file = StoreFile.missing ∨ file = StoreFile.invalidJson) →
      (loadVectorStore file newRAGChatbotStore).2 ≠ Except.ok ()
      ∧ (startupStore file).documents = [] := by
  intro file h
  rcases h with h | h <;> subst h <;> exact ⟨by simp [loadVectorStore], rfl⟩

/-- Witness for C7 at a syntactically invalid store file. -/
theorem loadFailure_emptyIndex_witness :
    (StoreFile.invalidJson = StoreFile.missing
      ∨ StoreFile.invalidJson = StoreFile.invalidJson)
    ∧ (loadVectorStore StoreFile.invalidJson newRAGChatbotStore).2 ≠ Except.ok ()
    ∧ (startupStore StoreFile.invalidJson).documents = [] :=
  ⟨Or.inr rfl, (loadFailure_emptyIndex StoreFile.invalidJson (Or.inr rfl)).1,
    (loadFailure_emptyIndex StoreFile.invalidJson (Or.inr rfl)).2⟩

/-- `ExtractTextFromPDF` (`src/main.go:83-115`).  The oracle `pdfOpen`
is the external collaborator: either the `pdf.Open` failure, or the
cleaned text (`cleanText` of `GetPlainText`) of each page that the
library could extract (null pages and per-page extraction errors are
already skipped at that boundary).  The repository's own logic keeps
only pages whose cleaned text is longer than 50 bytes. -/
def extractTextFromPDF (pdfOpen : Except String (List String)) :
    Except String (List String) :=
  match pdfOpen with
  | Except.error e => Except.error ("errore apertura PDF: " ++ e)
  | Except.ok cleanedPages =>
      Except.ok (cleanedPages.filter (fun p => decide (50 < p.utf8ByteSize)))

/-- The per-chunk body of both ingestion loops (`src/main.go:226-257`
and `458-490`): a chunk whose trimmed text is shorter than 20 bytes is
skipped; otherwise it is embedded, a failed embedding skipping just
that chunk; an embedded chunk becomes a `Document`. -/
def embedChunk (embed : String → Except String (List ℚ))
    (mkId : ℕ → String → String) (page : ℤ) (chunkIdx : ℕ) (chunk : String) :
    Option Document :=
  if chunk.trim.utf8ByteSize < 20 then none
  else
    match embed chunk with
    | Except.error _ => none
    | Except.ok vector =>
        some { id := mkId chunkIdx chunk, content := chunk, page := page,
               vector := vector }

/-- The documents one chunk list contributes, in chunk order, indexed
by position in the list (skipped chunks still advance the index). -/
def embedChunks (embed : String → Except String (List ℚ))
    (mkId : ℕ → String → String) (page : ℤ) (chunks : List String) :
    List Document :=
  chunks.enum.filterMap (fun ic => embedChunk embed mkId page ic.1 ic.2)

/-- The id of a PDF chunk (`src/main.go:234`); `hash` is the hex md5
fingerprint of the chunk text, modelled as an oracle. -/
def pdfChunkId (hash : String → String) (pageNum chunkIdx : ℕ) (chunk : String) :
    String :=
  "page_" ++ toString (pageNum + 1) ++ "_chunk_" ++ toString chunkIdx ++ "_"
    ++ hash chunk

/-- The id of a TXT chunk (`src/main.go:466`). -/
def txtChunkId (hash : String → String) (chunkIdx : ℕ) (chunk : String) : String :=
  "txt_chunk_" ++ toString chunkIdx ++ "_" ++ hash chunk

/-- `ProcessPDF` (`src/main.go:208-264`): on extraction failure the
error is returned and the receiver's store is untouched; otherwise the
store is rebuilt wholesale from the pages' chunks (size 300, overlap
50) and the model name is set.  The final `SaveVectorStore` is an
external file write, modelled as succeeding. -/
def processPDF (pdfOpen : Except String (List String))
    (embed : String → Except String (List ℚ)) (hash : String → String)
    (embedModel : String) (store : VectorStore) :
    VectorStore × Except String Unit :=
  match extractTextFromPDF pdfOpen with
  | Except.error e => (store, Except.error e)
  | Except.ok pages =>
      ({ documents := pages.enum.flatMap (fun pp =>
            embedChunks embed (pdfChunkId hash pp.1) ((pp.1 : ℤ) + 1)
              (chunkText pp.2 300 50)),
         model_name := embedModel }, Except.ok ())

/-- `ProcessTXT` (`src/main.go:428-496`): the oracle `readClean` is
the file read composed with `cleanText` (cleanup is the out-of-scope
stateless filter); a read failure is returned as is, a cleaned text
whose trimmed length is under 50 bytes is a hard failure, and
otherwise the store is rebuilt from the text's chunks at page 1. -/
def processTXT (readClean : Except String String)
    (embed : String → Except String (List ℚ)) (hash : String → String)
    (embedModel : String) (store : VectorStore) :
    VectorStore × Except String Unit :=
  match readClean with
  | Except.error e => (store, Except.error ("errore lettura file TXT: " ++ e))
  | Except.ok cleanedText =>
      if cleanedText.trim.utf8ByteSize < 50 then
        (store, Except.error "file TXT troppo corto o vuoto")
      else
        ({ documents := embedChunks embed (txtChunkId hash) 1
              (chunkText cleanedText 300 50),
           model_name := embedModel }, Except.ok ())

/-- A concrete embedding oracle that always succeeds. -/
def embedOK : String → Except String (List ℚ) := fun _ => Except.ok [1]

/-- A concrete fingerprint oracle. -/
def hashFixed : String → String := fun _ => "fe12ab34"

/-- C5 counterexample: a PDF that opens fine but whose only page's
cleaned text is 1 byte (far below the 50-character minimum) is NOT a
hard failure — `ProcessPDF` silently drops the page and succeeds with
an empty index, where the claim demands a hard failure. -/
theorem ingestShortText_cex :
    "x".utf8ByteSize < 50
    ∧ (processPDF (Except.ok ["x"]) embedOK hashFixed "nomic-embed-text"
        newRAGChatbotStore).2 = Except.ok () :=
  ⟨by decide, rfl⟩

/-- C5 amended: `ProcessTXT` hard-fails exactly when the read fails or
the cleaned text's trimmed length is under 50 bytes; `ProcessPDF`
hard-fails exactly when the PDF cannot be opened (short pages are
silently dropped, so a readable PDF with only short pages succeeds).
Per-chunk embedding failures never fail either ingestion. -/
theorem ingestHardFailure :
    (∀ (pdfOpen : Except String (List String)) embed hash model store,
        (∃ e, (processPDF pdfOpen embed hash model store).2 = Except.error e)
          ↔ (∃ e, pdfOpen = Except.error e))
    ∧ (∀ (readClean : Except String String) embed hash model store,
        (∃ e, (processTXT readClean embed hash model store).2 = Except.error e)
          ↔ ((∃ e, readClean = Except.error e)
              ∨ (∃ t, readClean = Except.ok t ∧ t.trim.utf8ByteSize < 50))) := by
  constructor
  · intro pdfOpen embed hash model store
    cases pdfOpen with
    | error e => simp [processPDF, extractTextFromPDF]
    | ok pages => simp [processPDF, extractTextFromPDF]
  · intro readClean embed hash model store
    cases readClean with
    | error e => simp [processTXT]
    | ok t =>
      by_cases h : t.trim.utf8ByteSize < 50
      · simp [processTXT, h]
      · simp [processTXT, h]

/-- C6: when extraction fails, `ProcessPDF` surfaces the failure and
the vector store — documents and model name — is exactly what it was
before the call (the wholesale replace only happens after a
successful extraction). -/
theorem processPDF_extractFailure :
    ∀ (e : String) (embed : String → Except String (List ℚ))
      (hash : String → String) (model : String) (store : VectorStore),
      processPDF (Except.error e) embed hash model store
        = (store, Except.error ("errore apertura PDF: " ++ e)) := by
  intro e embed hash model store
  rfl

/-- The two external backends `Chat` can call: `GetEmbedding`
(`/api/embed`) and the generation request (`/api/generate`). -/
structure Backend where
  embed : String → Except String (List ℚ)
  generate : String → Except String String

/-- The grounded prompt `GenerateResponse` builds
(`src/main.go:331-354`): the retrieved chunks labelled with their page
numbers, followed by the fixed Italian instruction block. -/
def generatePrompt (question : String) (context : List Document) : String :=
  "Sei un assistente che risponde a domande basandoti esclusivamente sul documento fornito.\n\n"
    ++ "Contesto dal documento:\n\n"
    ++ String.join (context.enum.map (fun idoc =>
        "Sezione " ++ toString (idoc.1 + 1) ++ " (Pagina " ++ toString idoc.2.page
          ++ "):\n" ++ idoc.2.content ++ "\n\n"))
    ++ "\n\nDomanda: " ++ question
    ++ "\n\nIstruzioni:\n- Rispondi SOLO in italiano\n- Usa ESCLUSIVAMENTE le informazioni del contesto fornito\n- Se la risposta non è presente nel documento, dillo chiaramente\n- Sii preciso e dettagliato\n- Cita la pagina quando possibile\n\nRisposta:"

/-- `Chat` (`src/main.go:392-410`).  The second component records the
backend calls made, in order.  On an empty index `Chat` returns the
fixed message with no error and performs no backend call; otherwise it
embeds the question, retrieves the top 4 similar documents, and asks
the generation backend for an answer grounded on them. -/
noncomputable def chat (b : Backend) (store : VectorStore) (question : String) :
    Except String (String × List Document) × List String :=
  if store.documents = [] then
    (Except.ok ("Per favore, carica prima un documento PDF.", []), [])
  else
    match b.embed question with
    | Except.error e => (Except.error e, ["embed"])
    | Except.ok queryVector =>
      match b.generate (generatePrompt question
          (searchSimilar queryVector store.documents 4)) with
      | Except.error e => (Except.error e, ["embed", "generate"])
      | Except.ok answer =>
          (Except.ok (answer, searchSimilar queryVector store.documents 4),
            ["embed", "generate"])

/-- C8: on an empty index `Chat` returns the fixed
please-load-a-document message as a success (no error) with no
sources, and the backend call trace is empty — no embedding,
retrieval, or generation happens. -/
theorem chat_emptyIndex :
    ∀ (b : Backend) (store : VectorStore) (question : String),
      store.documents = [] →
      chat b store question
        = (Except.ok ("Per favore, carica prima un documento PDF.", []), []) := by
  intro b store question h
  simp [chat, h]

/-- A concrete backend for the witnesses. -/
def okBackend : Backend :=
  { embed := fun _ => Except.ok [1], generate := fun _ => Except.ok "risposta" }

/-- Witness for C8 on the fresh empty store. -/
theorem chat_emptyIndex_witness :
    ({ documents := [], model_name := "" } : VectorStore).documents = []
    ∧ chat okBackend { documents := [], model_name := "" } "ciao"
        = (Except.ok ("Per favore, carica prima un documento PDF.", []), []) :=
  ⟨rfl, chat_emptyIndex okBackend { documents := [], model_name := "" } "ciao" rfl⟩

/-- C10: every successful `Chat` on a non-empty index grounds the
answer on exactly the top-4 retrieval for the question's embedding —
`SearchSimilar` is always called with `k = 4` — so at most 4 chunks,
whatever the index size. -/
theorem chat_topK_four :
    ∀ (b : Backend) (store : VectorStore) (question : String)
      (queryVector : List ℚ) (answer : String) (docs : List Document)
      (calls : List String),
      store.documents ≠ [] →
      b.embed question = Except.ok queryVector →
      chat b store question = (Except.ok (answer, docs), calls) →
      docs = searchSimilar queryVector store.documents 4 ∧ docs.length ≤ 4 := by
  intro b store q qv ans docs calls hne hemb hchat
  unfold chat at hchat
  rw [if_neg hne, hemb] at hchat
  dsimp only at hchat
  cases hgen : b.generate (generatePrompt q (searchSimilar qv store.documents 4)) with
  | error e =>
      rw [hgen] at hchat
      dsimp only at hchat
      exact absurd hchat (by simp)
  | ok a =>
      rw [hgen] at hchat
      dsimp only at hchat
      simp only [Prod.mk.injEq, Except.ok.injEq] at hchat
      obtain ⟨⟨_, hd⟩, _⟩ := hchat
      refine ⟨hd.symm, ?_⟩
      rw [← hd]
      simp only [searchSimilar, List.length_map, List.length_take]
      omega

/-- A one-document store for the C10 witness. -/
def oneDocStore : VectorStore :=
  { documents := [{ id := "d", content := "c", page := 1, vector := [1] }],
    model_name := "m" }

/-- Witness for C10 on a one-document store. -/
theorem chat_topK_four_witness :
    oneDocStore.documents ≠ []
    ∧ okBackend.embed "q" = Except.ok [1]
    ∧ chat okBackend oneDocStore "q"
        = (Except.ok ("risposta", searchSimilar [1] oneDocStore.documents 4),
            ["embed", "generate"])
    ∧ (searchSimilar [1] oneDocStore.documents 4
          = searchSimilar [1] oneDocStore.documents 4
        ∧ (searchSimilar [1] oneDocStore.documents 4).length ≤ 4) := by
  have hchat : chat okBackend oneDocStore "q"
      = (Except.ok ("risposta", searchSimilar [1] oneDocStore.documents 4),
          ["embed", "generate"]) := rfl
  exact ⟨by simp [oneDocStore], rfl, hchat,
    chat_topK_four okBackend oneDocStore "q" [1] "risposta" _ _
      (by simp [oneDocStore]) rfl hchat⟩

end GoOllama3
